import Mathlib

/-
Verification of the patch tokenizer (img_to_patch) from the Vision
Transformer notebook.  Tensors are modelled shallowly: a shape (list of
axis lengths) together with the flat row-major storage, given as a total
function from flat indices to integer pixel values.  The torch operations
used by the source (reshape, permute, flatten) are pure rearrangements of
the row-major storage, so each is embedded as an index transformation.
Pixel values are modelled as integers; every claim under verification is
about data layout, not pixel arithmetic.
-/

/-- Error kind raised on shape mismatch: the spec's single error kind,
covering both a failed 4-way unpack of the shape and an invalid reshape. -/
inductive ShapeError where
  | shapeMismatch
deriving DecidableEq

/-- A tensor: axis lengths plus flat row-major storage.  Entries of
`data` at flat indices at or beyond the number of elements are junk and
never relevant. -/
structure Tensor where
  shape : List ℕ
  data : ℕ → ℤ

/-- Number of elements of a tensor: the product of its axis lengths. -/
def Tensor.numel (t : Tensor) : ℕ := t.shape.prod

/-- The list `[0, 1, ..., n - 1]`. -/
def countList : ℕ → List ℕ
  | 0 => []
  | n + 1 => countList n ++ [n]

/-- Position of the first occurrence of `j` in a list (length of the list
if absent; only used on lists that contain `j`). -/
def posOf (j : ℕ) : List ℕ → ℕ
  | [] => 0
  | a :: as => if a = j then 0 else posOf j as + 1

/-- Decode a flat row-major index into a multi-index for `dims`. -/
def unflattenIdx : List ℕ → ℕ → List ℕ
  | [], _ => []
  | _ :: ds, n => n / ds.prod :: unflattenIdx ds (n % ds.prod)

/-- Encode a multi-index into a flat row-major index for `dims`. -/
def flattenIdx : List ℕ → List ℕ → ℕ
  | _ :: ds, i :: is => i * ds.prod + flattenIdx ds is
  | _, _ => 0

/-- torch reshape on a contiguous tensor: the flat storage is unchanged
and only the shape is reinterpreted; raises (here: returns an error) when
the requested shape does not have exactly `numel` elements. -/
def Tensor.reshape (t : Tensor) (s : List ℕ) : Except ShapeError Tensor :=
  if s.prod = t.numel then Except.ok { shape := s, data := t.data }
  else Except.error ShapeError.shapeMismatch

/-- torch permute: axis `k` of the result is axis `dims[k]` of the input.
The result is materialised in row-major order: the entry at flat index
`n` is found by decoding `n` over the permuted shape, rearranging the
multi-index back to the input's axis order, and reading the input. -/
def Tensor.permute (t : Tensor) (dims : List ℕ) : Tensor :=
  { shape := dims.map (fun k => t.shape.getD k 0)
    data := fun n =>
      let m := unflattenIdx (dims.map (fun k => t.shape.getD k 0)) n
      t.data (flattenIdx t.shape
        ((countList t.shape.length).map (fun j => m.getD (posOf j dims) 0))) }

/-- torch flatten(a, b): merge axes `a` through `b` (inclusive) into one
axis; on row-major storage this is a pure shape change. -/
def Tensor.flatten (t : Tensor) (a b : ℕ) : Tensor :=
  { shape := t.shape.take a ++ [((t.shape.drop a).take (b - a + 1)).prod]
      ++ t.shape.drop (b + 1)
    data := t.data }

/-- Read a tensor at a multi-index. -/
def Tensor.atIdx (t : Tensor) (m : List ℕ) : ℤ := t.data (flattenIdx t.shape m)

/-- The patch tokenizer, transcribed from the notebook.  Note the source
unpacks the shape as `B, C, W, H = x.shape` (third axis bound to the
name W, fourth to H), then reshapes to
(B, C, H // patch_size, patch_size, W // patch_size, patch_size),
permutes with (0, 2, 4, 1, 3, 5), flattens axes 1..2, and if
`flatten_channels` also flattens axes 2..4.  A failed 4-way unpack or an
invalid reshape raises; both are the spec's ShapeError. -/
def img_to_patch (x : Tensor) (patch_size : ℕ) (flatten_channels : Bool := true) :
    Except ShapeError Tensor :=
  match x.shape with
  | [B, C, W, H] =>
      match x.reshape [B, C, H / patch_size, patch_size, W / patch_size, patch_size] with
      | Except.error e => Except.error e
      | Except.ok x1 =>
          let x2 := x1.permute [0, 2, 4, 1, 3, 5]
          let x3 := x2.flatten 1 2
          if flatten_channels then Except.ok (x3.flatten 2 4) else Except.ok x3
  | _ => Except.error ShapeError.shapeMismatch

/-- The call frame of img_to_patch: Python passes the tensor by
reference, and the body only rebinds its local name through
value-returning torch ops (reshape, permute and flatten allocate views;
no in-place operation appears in the source), so the pair returned here
is the result together with the caller's tensor as it stands after the
call. -/
def img_to_patch_call (x : Tensor) (patch_size : ℕ) (flatten_channels : Bool := true) :
    Except ShapeError Tensor × Tensor :=
  (img_to_patch x patch_size flatten_channels, x)

/-- First step of VisionTransformer.forward, transcribed from the
notebook: it calls img_to_patch with only the tensor and the patch size,
leaving flatten_channels to its default. -/
def visionTransformerPatchify (x : Tensor) (patch_size : ℕ) : Except ShapeError Tensor :=
  img_to_patch x patch_size

/-- Whether a shape is accepted by img_to_patch according to the spec's
error conditions: exactly 4 axes, with the third (H) and fourth (W)
divisible by the patch size. -/
def divisibleShape (s : List ℕ) (P : ℕ) : Bool :=
  match s with
  | [_, _, H, W] => (H % P == 0) && (W % P == 0)
  | _ => false

/-- Reassembly of a grid-form patch sequence into an image, following the
spec's partition description (this is its inverse): the patch index runs
row-major over the (H / P, W / P) grid, and the patch at grid cell
(bi, bj) is the P by P block of the image whose top-left pixel is at
(bi * P, bj * P).  Used to compare the code's output against the spec's
intended partition. -/
def specReassemble (t : Tensor) (H W P : ℕ) : Tensor :=
  { shape := [t.shape.getD 0 0, t.shape.getD 2 0, H, W]
    data := fun n =>
      let m := unflattenIdx [t.shape.getD 0 0, t.shape.getD 2 0, H, W] n
      t.atIdx [m.getD 0 0, m.getD 2 0 / P * (W / P) + m.getD 3 0 / P,
        m.getD 1 0, m.getD 2 0 % P, m.getD 3 0 % P] }

/-- Concrete image batch of shape (2, 3, 32, 32) whose pixel at flat
index n has value n. -/
def exImg : Tensor := { shape := [2, 3, 32, 32], data := fun n => (n : ℤ) }

/-- Concrete non-square image batch of shape (1, 1, 4, 2) (H = 4, W = 2)
whose pixel at flat index n has value n, so the pixel at (h, w) has value
2 * h + w. -/
def exNonSquare : Tensor := { shape := [1, 1, 4, 2], data := fun n => (n : ℤ) }

/-- Concrete tensor of shape (0, 1, 30, 4): an empty batch whose height
30 is not divisible by 4. -/
def exZeroBatch : Tensor := { shape := [0, 1, 30, 4], data := fun _ => 0 }

/-- Concrete image batch of shape (1, 1, 30, 4): height 30 is not
divisible by patch size 4. -/
def exBad : Tensor := { shape := [1, 1, 30, 4], data := fun n => (n : ℤ) }

/-- Concrete image batch of shape (2, 3, 4, 4): with patch size 4 each
image is a single patch. -/
def exSingle : Tensor := { shape := [2, 3, 4, 4], data := fun n => (n : ℤ) }

/-- C7: img_to_patch has no side effects: the caller's tensor after the
call equals the tensor passed in, and the call's only product is its
return value. -/
theorem img_to_patch_no_side_effects (x : Tensor) (P : ℕ) (fc : Bool) :
    (img_to_patch_call x P fc).2 = x ∧
    (img_to_patch_call x P fc).1 = img_to_patch x P fc :=
  ⟨rfl, rfl⟩

/-- C8: img_to_patch is deterministic: two calls with equal input tensor,
equal patch size and equal flatten_channels flag produce equal outputs. -/
theorem img_to_patch_deterministic (x₁ x₂ : Tensor) (P₁ P₂ : ℕ) (f₁ f₂ : Bool)
    (hx : x₁ = x₂) (hP : P₁ = P₂) (hf : f₁ = f₂) :
    img_to_patch x₁ P₁ f₁ = img_to_patch x₂ P₂ f₂ := by
  subst hx; subst hP; subst hf; rfl

/-- Witness for C8 at the concrete batch of shape (2, 3, 32, 32) with
patch size 4. -/
theorem img_to_patch_deterministic_example :
    img_to_patch exImg 4 true = img_to_patch exImg 4 true :=
  img_to_patch_deterministic exImg exImg 4 4 true true rfl rfl rfl

/-- C2 (code bug): reassembling the grid-form output of img_to_patch on
the patch grid described by the spec does not reproduce the original
input for the non-square batch of shape (1, 1, 4, 2) with patch size 2
(which divides both H = 4 and W = 2): the reassembled pixel at
(0, 0, 1, 0) is 4 while the original pixel there is 2.  The source
unpacks `B, C, W, H = x.shape`, swapping height and width relative to
its own docstring, so for non-square inputs the patches are not the
P by P blocks of the image. -/
theorem img_to_patch_roundtrip_counterexample :
    (img_to_patch exNonSquare 2 false).map
        (fun g => (specReassemble g 4 2 2).atIdx [0, 0, 1, 0]) = Except.ok 4 ∧
    exNonSquare.atIdx [0, 0, 1, 0] = 2 :=
  ⟨rfl, rfl⟩

/-- C3 (code bug): for the non-square batch of shape (1, 1, 4, 2) with
patch size 2, the grid-form patch at index 0 is not the top-left 2 by 2
block of the image: its entry at within-patch row 1, column 0 is the
input pixel at (h, w) = (2, 0), not the pixel at (1, 0). -/
theorem img_to_patch_patch_order_counterexample :
    (img_to_patch exNonSquare 2 false).map (fun g => g.atIdx [0, 0, 0, 1, 0]) =
      Except.ok (exNonSquare.atIdx [0, 0, 2, 0]) ∧
    exNonSquare.atIdx [0, 0, 2, 0] ≠ exNonSquare.atIdx [0, 0, 1, 0] :=
  ⟨rfl, by decide⟩

/-- C4 counterexample: on the tensor of shape (0, 1, 30, 4) with patch
size 4, whose height 30 is not divisible by 4, img_to_patch returns
normally instead of failing: with an empty batch axis the reshape is
between two zero-element shapes and succeeds. -/
theorem img_to_patch_error_exactness_counterexample :
    (img_to_patch exZeroBatch 4 true).isOk = true ∧ ¬ (4 : ℕ) ∣ 30 :=
  ⟨rfl, by decide⟩

/-- When the patch size divides both spatial axes, img_to_patch succeeds
and its two forms are the explicit reshape-permute-flatten composites.
Note the reshape target reflects the source's swapped unpack: the third
entry is W / P (from the source's `H // patch_size` with H bound to the
fourth axis). -/
theorem img_to_patch_ok_of_dvd (B C H W P : ℕ) (d : ℕ → ℤ) (hP : 0 < P)
    (hH : P ∣ H) (hW : P ∣ W) :
    img_to_patch ⟨[B, C, H, W], d⟩ P false =
      Except.ok (((Tensor.mk [B, C, W / P, P, H / P, P] d).permute
        [0, 2, 4, 1, 3, 5]).flatten 1 2) ∧
    img_to_patch ⟨[B, C, H, W], d⟩ P true =
      Except.ok ((((Tensor.mk [B, C, W / P, P, H / P, P] d).permute
        [0, 2, 4, 1, 3, 5]).flatten 1 2).flatten 2 4) := by
  obtain ⟨h1, rfl⟩ := hH
  obtain ⟨w1, rfl⟩ := hW
  have hcond : ([B, C, P * w1 / P, P, P * h1 / P, P] : List ℕ).prod
      = (Tensor.mk [B, C, P * h1, P * w1] d).numel := by
    simp only [Tensor.numel, List.prod_cons, List.prod_nil,
      Nat.mul_div_cancel_left _ hP, mul_one]
    ring
  have hre : (Tensor.mk [B, C, P * h1, P * w1] d).reshape
      [B, C, P * w1 / P, P, P * h1 / P, P]
      = Except.ok (Tensor.mk [B, C, P * w1 / P, P, P * h1 / P, P] d) := by
    rw [Tensor.reshape, if_pos hcond]
  constructor <;> simp [img_to_patch, hre]

/-- Shape of the grid-form composite. -/
theorem grid_shape (B C H W P : ℕ) (d : ℕ → ℤ) :
    (((Tensor.mk [B, C, W / P, P, H / P, P] d).permute
        [0, 2, 4, 1, 3, 5]).flatten 1 2).shape
      = [B, W / P * (H / P), C, P, P] := by
  simp [Tensor.permute, Tensor.flatten]

/-- Shape of the feature-form composite. -/
theorem feature_shape (B C H W P : ℕ) (d : ℕ → ℤ) :
    ((((Tensor.mk [B, C, W / P, P, H / P, P] d).permute
        [0, 2, 4, 1, 3, 5]).flatten 1 2).flatten 2 4).shape
      = [B, W / P * (H / P), C * (P * P)] := by
  simp [Tensor.permute, Tensor.flatten, mul_assoc]

/-- C1: for every 4-axis batch (B, C, H, W) and positive patch size P
dividing H and W, img_to_patch returns shape
(B, (H/P)*(W/P), C, P, P) in grid form and (B, (H/P)*(W/P), C*P*P) in
flattened form. -/
theorem img_to_patch_output_shapes (x : Tensor) (B C H W P : ℕ)
    (hsh : x.shape = [B, C, H, W]) (hP : 0 < P) (hH : P ∣ H) (hW : P ∣ W) :
    ∃ g f, img_to_patch x P false = Except.ok g ∧
      img_to_patch x P true = Except.ok f ∧
      g.shape = [B, H / P * (W / P), C, P, P] ∧
      f.shape = [B, H / P * (W / P), C * P * P] := by
  obtain ⟨s, d⟩ := x
  have hs : s = [B, C, H, W] := hsh
  subst hs
  obtain ⟨hfalse, htrue⟩ := img_to_patch_ok_of_dvd B C H W P d hP hH hW
  refine ⟨_, _, hfalse, htrue, ?_, ?_⟩
  · rw [grid_shape, Nat.mul_comm (W / P) (H / P)]
  · rw [feature_shape, Nat.mul_comm (W / P) (H / P), Nat.mul_assoc]

/-- Witness for C1: the spec's concrete example, batch shape
(2, 3, 32, 32) with patch size 4, giving grid shape (2, 64, 3, 4, 4) and
flattened shape (2, 64, 48). -/
theorem img_to_patch_output_shapes_example :
    ∃ g f, img_to_patch exImg 4 false = Except.ok g ∧
      img_to_patch exImg 4 true = Except.ok f ∧
      g.shape = [2, 64, 3, 4, 4] ∧ f.shape = [2, 64, 48] := by
  simpa using img_to_patch_output_shapes exImg 2 3 32 32 4 rfl (by decide)
    (by decide) (by decide)

/-- C5: on valid input the flattened form has feature vectors of length
C*P*P, and the merge of the channel and within-patch axes is
channel-major, then row-major, then column-major: feature position
c*P*P + i*P + j of a patch holds that patch's entry at channel c, row i,
column j of the grid form. -/
theorem img_to_patch_feature_order (x : Tensor) (B C H W P : ℕ)
    (hsh : x.shape = [B, C, H, W]) (hP : 0 < P) (hH : P ∣ H) (hW : P ∣ W) :
    ∃ g f, img_to_patch x P false = Except.ok g ∧
      img_to_patch x P true = Except.ok f ∧
      f.shape = [B, H / P * (W / P), C * P * P] ∧
      ∀ b k c i j, b < B → k < H / P * (W / P) → c < C → i < P → j < P →
        f.atIdx [b, k, c * P * P + i * P + j] = g.atIdx [b, k, c, i, j] := by
  obtain ⟨s, d⟩ := x
  have hs : s = [B, C, H, W] := hsh
  subst hs
  obtain ⟨hfalse, htrue⟩ := img_to_patch_ok_of_dvd B C H W P d hP hH hW
  refine ⟨_, _, hfalse, htrue, ?_, ?_⟩
  · rw [feature_shape, Nat.mul_comm (W / P) (H / P), Nat.mul_assoc]
  · intro b k c i j _ _ _ _ _
    rw [Tensor.atIdx, Tensor.atIdx, grid_shape, feature_shape]
    apply congrArg
    simp only [flattenIdx, List.prod_cons, List.prod_nil]
    ring

/-- Witness for C5 at the concrete batch of shape (2, 3, 32, 32) with
patch size 4, checking feature position c*16 + i*4 + j against the grid
entry at one concrete multi-index. -/
theorem img_to_patch_feature_order_example :
    ∃ g f, img_to_patch exImg 4 false = Except.ok g ∧
      img_to_patch exImg 4 true = Except.ok f ∧
      f.shape = [2, 64, 48] ∧
      f.atIdx [1, 9, 2 * 16 + 1 * 4 + 3] = g.atIdx [1, 9, 2, 1, 3] := by
  obtain ⟨g, f, hg, hf, hsh, hord⟩ := img_to_patch_feature_order exImg 2 3 32 32 4
    rfl (by decide) (by decide) (by decide)
  refine ⟨g, f, hg, hf, by simpa using hsh, ?_⟩
  have := hord 1 9 2 1 3 (by decide) (by decide) (by decide) (by decide) (by decide)
  simpa using this

/-- C10: VisionTransformer.forward calls img_to_patch with the
flatten_channels argument omitted, which defaults to true, so the forward
pass receives the feature-form tensor whose last axis has length
num_channels * patch_size squared, the input width of its linear layer. -/
theorem visionTransformerPatchify_default (x : Tensor) (B C H W P : ℕ)
    (hsh : x.shape = [B, C, H, W]) (hP : 0 < P) (hH : P ∣ H) (hW : P ∣ W) :
    visionTransformerPatchify x P = img_to_patch x P true ∧
    ∃ f, visionTransformerPatchify x P = Except.ok f ∧
      f.shape = [B, H / P * (W / P), C * P ^ 2] := by
  refine ⟨rfl, ?_⟩
  obtain ⟨s, d⟩ := x
  have hs : s = [B, C, H, W] := hsh
  subst hs
  obtain ⟨-, htrue⟩ := img_to_patch_ok_of_dvd B C H W P d hP hH hW
  refine ⟨_, htrue, ?_⟩
  rw [feature_shape, Nat.mul_comm (W / P) (H / P), pow_two]

/-- Witness for C10 at the concrete batch of shape (2, 3, 32, 32) with
patch size 4: the defaulted call agrees with flatten_channels = true and
yields last axis length 3 * 4 ^ 2 = 48. -/
theorem visionTransformerPatchify_default_example :
    visionTransformerPatchify exImg 4 = img_to_patch exImg 4 true ∧
    ∃ f, visionTransformerPatchify exImg 4 = Except.ok f ∧
      f.shape = [2, 64, 48] := by
  obtain ⟨heq, f, hf, hsh⟩ := visionTransformerPatchify_default exImg 2 3 32 32 4
    rfl (by decide) (by decide) (by decide)
  exact ⟨heq, f, hf, by simpa using hsh⟩

/-- C9: the feature-form output is exactly the grid-form output with its
last three axes merged into one: the call with flatten_channels = true is
the call with flatten_channels = false followed by flatten(2, 4), which
leaves the flat element order unchanged and turns a (b, n, C, P, P) shape
into (b, n, C*P*P). -/
theorem img_to_patch_feature_eq_grid_flatten :
    (∀ (x : Tensor) (P : ℕ), img_to_patch x P true =
      (img_to_patch x P false).map (fun t => t.flatten 2 4)) ∧
    (∀ t : Tensor, (Tensor.flatten t 2 4).data = t.data) ∧
    (∀ (b n C P : ℕ) (d : ℕ → ℤ),
      (Tensor.flatten (Tensor.mk [b, n, C, P, P] d) 2 4).shape = [b, n, C * P * P]) := by
  refine ⟨?_, fun t => rfl, fun b n C P d => ?_⟩
  · intro x P
    obtain ⟨s, d⟩ := x
    rcases s with _ | ⟨a, s⟩
    · rfl
    rcases s with _ | ⟨b, s⟩
    · rfl
    rcases s with _ | ⟨c, s⟩
    · rfl
    rcases s with _ | ⟨e, s⟩
    · rfl
    rcases s with _ | ⟨f, s⟩
    · simp only [img_to_patch]
      cases (Tensor.mk [a, b, c, e] d).reshape [a, b, e / P, P, c / P, P] with
      | error err => rfl
      | ok x1 => rfl
    · rfl
  · simp [Tensor.flatten, mul_assoc]

/-- C6: on a batch of shape (B, C, P, P) with patch size P, img_to_patch
produces exactly one patch per image and the flattened output is the
original image flattened: its flat storage agrees with the input's on
every element. -/
theorem img_to_patch_single_patch (x : Tensor) (B C P : ℕ)
    (hsh : x.shape = [B, C, P, P]) (hP : 0 < P) :
    ∃ f, img_to_patch x P true = Except.ok f ∧ f.shape = [B, 1, C * P * P] ∧
      ∀ n, n < x.numel → f.data n = x.data n := by
  obtain ⟨s, d⟩ := x
  have hs : s = [B, C, P, P] := hsh
  subst hs
  obtain ⟨-, htrue⟩ := img_to_patch_ok_of_dvd B C P P P d hP dvd_rfl dvd_rfl
  have hPP : P / P = 1 := Nat.div_self hP
  rw [hPP] at htrue
  refine ⟨_, htrue, ?_, ?_⟩
  · have h := feature_shape B C P P P d
    rw [hPP] at h
    simpa [mul_assoc] using h
  · intro n hn
    have hX : 0 < (Tensor.mk [B, C, P, P] d).numel :=
      lt_of_le_of_lt (Nat.zero_le n) hn
    have hC : 0 < C := by
      rcases Nat.eq_zero_or_pos C with rfl | h
      · simp [Tensor.numel] at hX
      · exact h
    have hCPP : 0 < C * (P * P) := Nat.mul_pos hC (Nat.mul_pos hP hP)
    show ((Tensor.mk [B, C, 1, P, 1, P] d).permute [0, 2, 4, 1, 3, 5]).data n = d n
    simp only [Tensor.permute, List.length_cons, List.length_nil, List.map_cons,
      List.map_nil, List.getD_cons_zero, List.getD_cons_succ, unflattenIdx,
      flattenIdx, countList, posOf, List.prod_cons, List.prod_nil, mul_one,
      one_mul, Nat.div_one, List.map_append, List.append_assoc, List.nil_append,
      List.cons_append, Nat.div_eq_of_lt (Nat.mod_lt n hCPP),
      Nat.mod_eq_of_lt (Nat.mod_lt n hCPP), zero_mul, add_zero, zero_add]
    norm_num [List.getD]
    have h1 : n % (P * P) % P = n % P := Nat.mod_mod_of_dvd n (dvd_mul_left P P)
    have h2 : n % (C * (P * P)) % (P * P) = n % (P * P) :=
      Nat.mod_mod_of_dvd n (dvd_mul_left (P * P) C)
    rw [← h1, Nat.div_add_mod' (n % (P * P)) P, ← h2,
      Nat.div_add_mod' (n % (C * (P * P))) (P * P), Nat.div_add_mod' n (C * (P * P))]

/-- Witness for C6 at the concrete batch of shape (2, 3, 4, 4) with patch
size 4: one patch per image, flattened shape (2, 1, 48), flat storage
unchanged. -/
theorem img_to_patch_single_patch_example :
    ∃ f, img_to_patch exSingle 4 true = Except.ok f ∧ f.shape = [2, 1, 48] ∧
      ∀ n, n < exSingle.numel → f.data n = exSingle.data n := by
  obtain ⟨f, hf, hsh, hid⟩ := img_to_patch_single_patch exSingle 2 3 4 rfl (by decide)
  exact ⟨f, hf, by simpa using hsh, hid⟩

/-- The reshape performed by img_to_patch preserves the element count
exactly when the patch size divides both spatial axes, as long as every
axis is positive. -/
theorem prod_eq_iff_dvd (B C H W P : ℕ) (hP : 0 < P) (hB : 0 < B) (hC : 0 < C)
    (hH : 0 < H) (hW : 0 < W) :
    (([B, C, W / P, P, H / P, P] : List ℕ).prod = ([B, C, H, W] : List ℕ).prod)
      ↔ (P ∣ H ∧ P ∣ W) := by
  simp only [List.prod_cons, List.prod_nil, mul_one]
  constructor
  · intro h
    have h' : W / P * (P * (H / P * P)) = H * W :=
      Nat.eq_of_mul_eq_mul_left hC (Nat.eq_of_mul_eq_mul_left hB h)
    have hle1 : H / P * P ≤ H := Nat.div_mul_le_self H P
    have hle2 : W / P * P ≤ W := Nat.div_mul_le_self W P
    have key : W / P * P * (H / P * P) = W * H := by
      calc W / P * P * (H / P * P) = W / P * (P * (H / P * P)) := by ring
        _ = H * W := h'
        _ = W * H := by ring
    have hge : W * H ≤ W / P * P * H := by
      rw [← key]
      exact mul_le_mul_left' hle1 (W / P * P)
    have hle : W / P * P * H ≤ W * H := mul_le_mul_right' hle2 H
    have ha : W / P * P = W := Nat.eq_of_mul_eq_mul_right hH (le_antisymm hle hge)
    have hb : H / P * P = H := by
      have hWb : W * (H / P * P) = W * H := by
        calc W * (H / P * P) = W / P * P * (H / P * P) := by rw [ha]
          _ = W * H := key
      exact Nat.eq_of_mul_eq_mul_left hW hWb
    exact ⟨⟨H / P, hb.symm.trans (mul_comm (H / P) P)⟩,
      ⟨W / P, ha.symm.trans (mul_comm (W / P) P)⟩⟩
  · rintro ⟨⟨h1, rfl⟩, ⟨w1, rfl⟩⟩
    simp only [Nat.mul_div_cancel_left _ hP]
    ring

/-- C4 (amended): provided every axis length is positive, img_to_patch
fails with a ShapeError exactly when the input does not have exactly
4 axes or when H or W is not evenly divisible by the patch size, and
returns normally otherwise; the error is returned directly to the caller
(the Except value, never retried). -/
theorem img_to_patch_isOk_iff_divisible (x : Tensor) (P : ℕ) (fc : Bool)
    (hP : 0 < P) (hpos : ∀ a ∈ x.shape, 0 < a) :
    (img_to_patch x P fc).isOk = divisibleShape x.shape P := by
  obtain ⟨s, d⟩ := x
  have hpos' : ∀ a ∈ s, 0 < a := hpos
  rcases s with _ | ⟨B, s⟩
  · rfl
  rcases s with _ | ⟨C, s⟩
  · rfl
  rcases s with _ | ⟨H, s⟩
  · rfl
  rcases s with _ | ⟨W, s⟩
  · rfl
  rcases s with _ | ⟨E, s⟩
  · -- exactly 4 axes
    have hB : 0 < B := hpos' B (by simp)
    have hC : 0 < C := hpos' C (by simp)
    have hH : 0 < H := hpos' H (by simp)
    have hW : 0 < W := hpos' W (by simp)
    by_cases hHd : P ∣ H
    · by_cases hWd : P ∣ W
      · obtain ⟨hfalse, htrue⟩ := img_to_patch_ok_of_dvd B C H W P d hP hHd hWd
        have hH0 : H % P = 0 := Nat.mod_eq_zero_of_dvd hHd
        have hW0 : W % P = 0 := Nat.mod_eq_zero_of_dvd hWd
        cases fc
        · rw [hfalse]
          simp [divisibleShape, hH0, hW0, Except.isOk, Except.toBool]
        · rw [htrue]
          simp [divisibleShape, hH0, hW0, Except.isOk, Except.toBool]
      · have hcond : ¬ (([B, C, W / P, P, H / P, P] : List ℕ).prod
            = (Tensor.mk [B, C, H, W] d).numel) := by
          intro hc
          exact hWd ((prod_eq_iff_dvd B C H W P hP hB hC hH hW).mp hc).2
        have hW0 : W % P ≠ 0 := fun h => hWd (Nat.dvd_of_mod_eq_zero h)
        simp only [img_to_patch, Tensor.reshape, if_neg hcond]
        simp [divisibleShape, hW0, Except.isOk, Except.toBool]
    · have hcond : ¬ (([B, C, W / P, P, H / P, P] : List ℕ).prod
          = (Tensor.mk [B, C, H, W] d).numel) := by
        intro hc
        exact hHd ((prod_eq_iff_dvd B C H W P hP hB hC hH hW).mp hc).1
      have hH0 : H % P ≠ 0 := fun h => hHd (Nat.dvd_of_mod_eq_zero h)
      simp only [img_to_patch, Tensor.reshape, if_neg hcond]
      simp [divisibleShape, hH0, Except.isOk, Except.toBool]
  · rfl

/-- Witness for C4 (amended) at the spec's error example: shape
(1, 1, 30, 4) with patch size 4, where H = 30 is not divisible by 4, so
the call fails. -/
theorem img_to_patch_isOk_iff_divisible_example :
    (img_to_patch exBad 4 true).isOk = false := by
  have h := img_to_patch_isOk_iff_divisible exBad 4 true (by decide) (by decide)
  exact h.trans (by decide)
